import Mathlib

/-!
# Verification of `useOnClickOutside` (src/src/hooks/dom/useOnClickOutside.ts)

The hook registers a `handleClick` handler for the global `mousedown` and
`touchstart` events.  On each event it evaluates

  `if (!elementRef.current?.contains(e.target as Node)) { callback(); }`

This file shallowly embeds the DOM fragment the hook needs (a node tree with
the `Node.contains` inclusive-descendant test), the handler, and the
effect/listener lifecycle, and proves the specification claims about them.

`useEventListener` is imported by the source file but its definition is not
part of this fragment; it is modelled from the spec where noted.
-/

/-- A DOM element node: an identifying payload together with the list of its
child nodes.  Equality of nodes is structural equality of the trees. -/
inductive Node : Type where
  | node (id : Nat) (children : List Node) : Node

/-- The children of a node. -/
def Node.children : Node → List Node
  | .node _ cs => cs

mutual
/-- Structural equality test on nodes (written by hand because automatic
derivation does not handle the nested `List Node`). -/
def Node.beq : Node → Node → Bool
  | .node i cs, .node j ds => i == j && beqChildren cs ds

/-- Pointwise equality test on child lists. -/
def beqChildren : List Node → List Node → Bool
  | [], [] => true
  | c :: cs, d :: ds => Node.beq c d && beqChildren cs ds
  | _, _ => false
end

instance : BEq Node := ⟨Node.beq⟩

theorem beqChildren_iff (cs ds : List Node)
    (ih : ∀ c ∈ cs, ∀ m, Node.beq c m = true ↔ c = m) :
    beqChildren cs ds = true ↔ cs = ds := by
  induction cs generalizing ds with
  | nil => cases ds <;> simp [beqChildren]
  | cons c cs ihl =>
    cases ds with
    | nil => simp [beqChildren]
    | cons d ds =>
      rw [beqChildren]
      have h1 : Node.beq c d = true ↔ c = d := ih c (List.mem_cons_self c cs) d
      have h2 : beqChildren cs ds = true ↔ cs = ds :=
        ihl ds (fun x hx m => ih x (List.mem_cons_of_mem _ hx) m)
      simp [Bool.and_eq_true, h1, h2, List.cons.injEq]

theorem node_beq_iff_aux :
    ∀ (k : Nat) (n m : Node), sizeOf n ≤ k → (Node.beq n m = true ↔ n = m) := by
  intro k
  induction k with
  | zero =>
    intro n m h
    cases n with
    | node i cs => simp [Node.node.sizeOf_spec] at h
  | succ k ih =>
    intro n m h
    cases n with
    | node i cs =>
      cases m with
      | node j ds =>
        have hcs : ∀ c ∈ cs, sizeOf c ≤ k := by
          intro c hc
          have h1 : sizeOf c < sizeOf cs := List.sizeOf_lt_of_mem hc
          have h2 : sizeOf (Node.node i cs) = 1 + sizeOf i + sizeOf cs := by
            simp [Node.node.sizeOf_spec]
          omega
        rw [Node.beq]
        simp [Bool.and_eq_true, beqChildren_iff cs ds
          (fun c hc m => ih c m (hcs c hc)), Node.node.injEq]

/-- `Node.beq` decides structural equality. -/
theorem node_beq_iff (n m : Node) : Node.beq n m = true ↔ n = m :=
  node_beq_iff_aux (sizeOf n) n m (Nat.le_refl _)

instance : LawfulBEq Node where
  eq_of_beq h := (node_beq_iff _ _).mp h
  rfl := (node_beq_iff _ _).mpr rfl

instance : DecidableEq Node :=
  fun a b => decidable_of_iff (Node.beq a b = true) (node_beq_iff a b)

mutual
/-- Embedding of DOM `Node.prototype.contains`: `el.contains t` is `true` iff
`t` is `el` itself or a descendant of `el` in the tree. -/
def Node.contains : Node → Node → Bool
  | .node i cs, t => (Node.node i cs == t) || containsAny cs t

/-- Helper: whether any node of the list contains `t`. -/
def containsAny : List Node → Node → Bool
  | [], _ => false
  | c :: cs, t => Node.contains c t || containsAny cs t
end

/-- Independent characterisation of the containment test, written as an
inductive ancestry relation: `Descendant t n` holds iff `t` equals `n` or is
reachable from `n` by descending through children (the spec's "origin node
equals the element or is a descendant of it in the document tree"). -/
inductive Descendant : Node → Node → Prop where
  | refl (n : Node) : Descendant n n
  | step {t c : Node} (i : Nat) (cs : List Node) :
      c ∈ cs → Descendant t c → Descendant t (.node i cs)

theorem containsAny_eq_true_iff (cs : List Node) (t : Node) :
    containsAny cs t = true ↔ ∃ c ∈ cs, Node.contains c t = true := by
  induction cs with
  | nil => simp [containsAny]
  | cons c cs ih => simp [containsAny, ih, Bool.or_eq_true]

theorem contains_iff_descendant_aux :
    ∀ (k : Nat) (n t : Node), sizeOf n ≤ k →
      (Node.contains n t = true ↔ Descendant t n) := by
  intro k
  induction k with
  | zero =>
    intro n t h
    cases n with
    | node i cs => simp [Node.node.sizeOf_spec] at h
  | succ k ih =>
    intro n t h
    cases n with
    | node i cs =>
      have hcs : ∀ c ∈ cs, sizeOf c ≤ k := by
        intro c hc
        have h1 : sizeOf c < sizeOf cs := List.sizeOf_lt_of_mem hc
        have h2 : sizeOf (Node.node i cs) = 1 + sizeOf i + sizeOf cs := by
          simp [Node.node.sizeOf_spec]
        omega
      rw [Node.contains]
      constructor
      · intro hcont
        simp only [Bool.or_eq_true] at hcont
        rcases hcont with heq | hany
        · have : Node.node i cs = t := beq_iff_eq.mp heq
          exact this ▸ Descendant.refl _
        · rcases (containsAny_eq_true_iff cs t).mp hany with ⟨c, hc, hct⟩
          exact Descendant.step i cs hc ((ih c t (hcs c hc)).mp hct)
      · intro hd
        cases hd with
        | refl => simp
        | step i cs hc hct =>
          simp only [Bool.or_eq_true]
          exact Or.inr ((containsAny_eq_true_iff cs t).mpr
            ⟨_, hc, (ih _ t (hcs _ hc)).mpr hct⟩)

/-- The executable containment test agrees with the inductive ancestry
relation. -/
theorem contains_iff_descendant (n t : Node) :
    Node.contains n t = true ↔ Descendant t n :=
  contains_iff_descendant_aux (sizeOf n) n t (Nat.le_refl _)

/-- Convenient converse direction: a `false` containment test refutes the
ancestry relation. -/
theorem not_descendant_of_contains_false {el t : Node}
    (h : Node.contains el t = false) : ¬ Descendant t el := by
  intro hd
  have hc := (contains_iff_descendant el t).mpr hd
  rw [h] at hc
  exact Bool.false_ne_true hc

/-- Unfolding lemma for the hand-written `BEq Node` instance. -/
theorem node_beq_def (a b : Node) : (a == b) = Node.beq a b := rfl

/-- The two event types the hook subscribes to (lines 39-40 of the source). -/
inductive EventType : Type where
  | mousedown
  | touchstart
deriving DecidableEq

/-- A dispatched input event: its type and its origin node (`e.target`),
which may be null at runtime. -/
structure DomEvent : Type where
  type : EventType
  target : Option Node
deriving DecidableEq

/-- DOM `el.contains(x)` for an argument that may be null: `contains(null)`
is `false`, since null is not an inclusive descendant of any node. -/
def Node.containsTarget (el : Node) (target : Option Node) : Bool :=
  match target with
  | none => false
  | some t => Node.contains el t

/-- The JS expression `elementRef.current?.contains(e.target as Node)`:
optional chaining yields `undefined` (here `none`) when `current` is
null/undefined, and the boolean result of `contains` otherwise. -/
def currentContains (current : Option Node) (target : Option Node) : Option Bool :=
  current.map (fun el => el.containsTarget target)

/-- JS `!` applied to a `boolean | undefined` value: `undefined` is falsy,
so `!` maps it to `true`. -/
def jsNot : Option Bool → Bool
  | none => true
  | some b => !b

/-- The guard of `handleClick` (line 35 of the source):
`!elementRef.current?.contains(e.target as Node)`.  `true` means the handler
executes `callback()`. -/
def handleClickFires (current target : Option Node) : Bool :=
  jsNot (currentContains current target)

/-- A registered global listener, recorded by the event type it listens for
and the identities of the `elementRef` and `callback` captured by its
`handleClick` closure. -/
structure Listener : Type where
  type : EventType
  refId : Nat
  cbId : Nat
deriving DecidableEq

/-- The world the handler runs in: the ref table (`refs r` is
`elementRef.current` for the ref of identity `r`, `none` when the element is
absent), the event being dispatched, the globally registered listeners, and
`client`, which stands for every other piece of program state — the only
part the callback itself may mutate. -/
structure World (σ : Type) : Type where
  refs : Nat → Option Node
  event : DomEvent
  listeners : List Listener
  client : σ

/-- Embedding of `handleClick` (lines 34-38 of the source) as a state
transformer: it reads `elementRef.current` and `e.target` and either runs
`callback()` — modelled by the transformer `cb` on the client state — or
does nothing; it writes nothing else. -/
def handleClick {σ : Type} (cb : σ → σ) (refId : Nat) (w : World σ) : World σ :=
  if handleClickFires (w.refs refId) w.event.target then
    ⟨w.refs, w.event, w.listeners, cb w.client⟩
  else
    w

/-- Modelled from the spec: `useEventListener` is imported from
`./useEventListener`, a file of this repository that is not part of this
fragment.  Per the spec it registers one listener for the given event type on
the global input surface when the owning effect runs and removes exactly that
listener on cleanup.  We record the registration it installs; the handler of
each registration made by `useOnClickOutside` is `handleClick` closed over
the hook's `elementRef` (identity `refId`) and `callback` (identity
`cbId`). -/
def useEventListener (t : EventType) (refId cbId : Nat) : Listener :=
  ⟨t, refId, cbId⟩

/-- The listeners installed by one run of the hook's effect (lines 39-40 of
the source): mousedown then touchstart, both with the same captured ref and
callback. -/
def useOnClickOutsideListeners (refId cbId : Nat) : List Listener :=
  [useEventListener .mousedown refId cbId, useEventListener .touchstart refId cbId]

/-- Lifecycle state of one `useOnClickOutside` call site: `none` before mount
and after unmount (cleanup has run), `some (r, c)` while the effect whose
dependency array `[elementRef, callback]` has identities `(r, c)` is
active. -/
structure HookState : Type where
  active : Option (Nat × Nat)
deriving DecidableEq

/-- The listeners currently registered on behalf of the hook. -/
def installedListeners : HookState → List Listener
  | ⟨none⟩ => []
  | ⟨some (r, c)⟩ => useOnClickOutsideListeners r c

/-- Lifecycle transitions, following React `useEffect` semantics for the
dependency array `[elementRef, callback]` (line 41 of the source): a render
installs the effect for the current dependency identities (cleaning up the
previous effect first if they changed); unmount runs cleanup only. -/
inductive HookEvt : Type where
  | render (r c : Nat)
  | unmount
deriving DecidableEq

/-- One lifecycle step of the hook. -/
def hookStep : HookState → HookEvt → HookState
  | _, .render r c => ⟨some (r, c)⟩
  | _, .unmount => ⟨none⟩

/-- Global event dispatch: every registered listener whose type matches the
event runs `handleClick`; the result lists, in registration order, the
identity of the callback each firing handler invokes. -/
def dispatch (refs : Nat → Option Node) (ls : List Listener) (e : DomEvent) :
    List Nat :=
  (ls.filter (fun l => l.type == e.type)).filterMap
    (fun l => if handleClickFires (refs l.refId) e.target then some l.cbId else none)

/-- Computation lemma for `==` on event types. -/
theorem beq_md_md : (EventType.mousedown == EventType.mousedown) = true := rfl

/-- Computation lemma for `==` on event types. -/
theorem beq_ts_md : (EventType.touchstart == EventType.mousedown) = false := rfl

/-- Computation lemma for `==` on event types. -/
theorem beq_md_ts : (EventType.mousedown == EventType.touchstart) = false := rfl

/-- Computation lemma for `==` on event types. -/
theorem beq_ts_ts : (EventType.touchstart == EventType.touchstart) = true := rfl

/-- Shared helper: while listeners for `(r, c)` are installed, an event whose
target lies outside the referenced element invokes callback `c` exactly
once. -/
theorem dispatch_active_outside (refs : Nat → Option Node) (r c : Nat)
    (e : DomEvent) (el t : Node) (hel : refs r = some el)
    (ht : e.target = some t) (hout : ¬ Descendant t el) :
    dispatch refs (useOnClickOutsideListeners r c) e = [c] := by
  have hcb : Node.contains el t = false := by
    cases hc : Node.contains el t
    · rfl
    · exact absurd ((contains_iff_descendant el t).mp hc) hout
  obtain ⟨ty, tgt⟩ := e
  simp only [DomEvent.target] at ht
  subst ht
  cases ty <;>
    simp [dispatch, useOnClickOutsideListeners, useEventListener, List.filter,
      handleClickFires, currentContains, jsNot, hel, Node.containsTarget, hcb,
      beq_md_md, beq_ts_md, beq_md_ts, beq_ts_ts]

/-! ## Concrete test fixtures (the spec's div-with-a-button scenario) -/

/-- A concrete button node. -/
def btnW : Node := Node.node 1 []

/-- A concrete element: a div containing the button. -/
def elW : Node := Node.node 0 [btnW]

/-- A concrete node elsewhere in the document, outside `elW`'s subtree. -/
def tW : Node := Node.node 2 []

/-- `tW` fails the containment test against `elW`. -/
theorem contains_elW_tW : Node.contains elW tW = false := by
  simp [elW, tW, btnW, Node.contains, containsAny, node_beq_def, Node.beq,
    beqChildren]

/-- The button is inside the div. -/
theorem btnW_descendant_elW : Descendant btnW elW :=
  Descendant.step 0 [btnW] (List.mem_singleton.mpr rfl) (Descendant.refl btnW)

/-! ## The claims -/

/-- C1: for a registered (elementRef, callback) pair, a mousedown or
touchstart event whose origin node is not equal to and not a descendant of
the element currently referenced by `elementRef` makes `handleClick` invoke
the callback (with no arguments): the resulting world is the old one with
`callback` applied to the client state and nothing else changed.
`Descendant` is inclusive, so `¬ Descendant t el` states exactly "not equal
to and not a descendant of". -/
theorem c1_outside_invokes_callback {σ : Type} (cb : σ → σ) (r : Nat)
    (w : World σ) (el t : Node) (hel : w.refs r = some el)
    (ht : w.event.target = some t) (hout : ¬ Descendant t el) :
    handleClick cb r w = ⟨w.refs, w.event, w.listeners, cb w.client⟩ := by
  have hcb : Node.contains el t = false := by
    cases hc : Node.contains el t
    · rfl
    · exact absurd ((contains_iff_descendant el t).mp hc) hout
  simp [handleClick, handleClickFires, currentContains, jsNot, hel, ht,
    Node.containsTarget, hcb]

/-- Witness for C1: a mousedown outside the div runs the callback. -/
theorem c1_outside_invokes_callback_witness :
    handleClick Nat.succ 0
        ⟨fun _ => some elW, ⟨EventType.mousedown, some tW⟩, [], 5⟩ =
      ⟨fun _ => some elW, ⟨EventType.mousedown, some tW⟩, [], 6⟩ := by
  have h := c1_outside_invokes_callback Nat.succ 0
    ⟨fun _ => some elW, ⟨EventType.mousedown, some tW⟩, [], 5⟩ elW tW rfl rfl
    (not_descendant_of_contains_false contains_elW_tW)
  simpa using h

/-- C2: an event whose origin node lies inside the referenced element's
subtree (including the element itself) leaves the world untouched: the
callback is not invoked. -/
theorem c2_inside_no_callback {σ : Type} (cb : σ → σ) (r : Nat)
    (w : World σ) (el t : Node) (hel : w.refs r = some el)
    (ht : w.event.target = some t) (hin : Descendant t el) :
    handleClick cb r w = w := by
  have hcb : Node.contains el t = true := (contains_iff_descendant el t).mpr hin
  simp [handleClick, handleClickFires, currentContains, jsNot, hel, ht,
    Node.containsTarget, hcb]

/-- Witness for C2: a touchstart on the button inside the div does
nothing. -/
theorem c2_inside_no_callback_witness :
    handleClick Nat.succ 0
        ⟨fun _ => some elW, ⟨EventType.touchstart, some btnW⟩, [], 5⟩ =
      ⟨fun _ => some elW, ⟨EventType.touchstart, some btnW⟩, [], 5⟩ :=
  c2_inside_no_callback Nat.succ 0
    ⟨fun _ => some elW, ⟨EventType.touchstart, some btnW⟩, [], 5⟩ elW btnW
    rfl rfl btnW_descendant_elW

/-- C3: when `elementRef.current` is absent (null/undefined), every
interaction invokes the callback, whatever the event's origin node is. -/
theorem c3_absent_ref_fires {σ : Type} (cb : σ → σ) (r : Nat) (w : World σ)
    (habs : w.refs r = none) :
    handleClick cb r w = ⟨w.refs, w.event, w.listeners, cb w.client⟩ := by
  simp [handleClick, handleClickFires, currentContains, jsNot, habs]

/-- Witness for C3: with the ref unresolved, even a click on the (future)
element's own node runs the callback. -/
theorem c3_absent_ref_fires_witness :
    handleClick Nat.succ 0
        ⟨fun _ => none, ⟨EventType.mousedown, some elW⟩, [], 5⟩ =
      ⟨fun _ => none, ⟨EventType.mousedown, some elW⟩, [], 6⟩ := by
  have h := c3_absent_ref_fires Nat.succ 0
    ⟨fun _ => none, ⟨EventType.mousedown, some elW⟩, [], 5⟩ rfl
  simpa using h

/-- C4: while the listeners for the pair `(r, c)` are installed, a single
interaction (one mousedown or one touchstart event) originating outside the
referenced element's subtree invokes the callback exactly once — the two
registrations (one per event type) never double-fire on one event. -/
theorem c4_exactly_once (refs : Nat → Option Node) (r c : Nat) (e : DomEvent)
    (el t : Node) (hel : refs r = some el) (ht : e.target = some t)
    (hout : ¬ Descendant t el) :
    dispatch refs (installedListeners ⟨some (r, c)⟩) e = [c] ∧
      (dispatch refs (installedListeners ⟨some (r, c)⟩) e).count c = 1 := by
  have hinst : installedListeners ⟨some (r, c)⟩ = useOnClickOutsideListeners r c :=
    rfl
  have hd := dispatch_active_outside refs r c e el t hel ht hout
  rw [hinst, hd]
  exact ⟨rfl, by simp⟩

/-- Witness for C4: a touchstart outside the div invokes callback 7 exactly
once. -/
theorem c4_exactly_once_witness :
    dispatch (fun _ => some elW) (installedListeners ⟨some (0, 7)⟩)
        ⟨EventType.touchstart, some tW⟩ = [7] ∧
      (dispatch (fun _ => some elW) (installedListeners ⟨some (0, 7)⟩)
        ⟨EventType.touchstart, some tW⟩).count 7 = 1 :=
  c4_exactly_once (fun _ => some elW) 0 7 ⟨EventType.touchstart, some tW⟩ elW tW
    rfl rfl (not_descendant_of_contains_false contains_elW_tW)

/-- C5: unmounting removes both listeners unconditionally (whatever state the
hook was in), and afterwards no interaction invokes any callback through this
hook. -/
theorem c5_unmount_removes_all (s : HookState) (refs : Nat → Option Node)
    (e : DomEvent) :
    installedListeners (hookStep s .unmount) = [] ∧
      dispatch refs (installedListeners (hookStep s .unmount)) e = [] := by
  constructor
  · rfl
  · rfl

/-- C6: a render with a changed dependency pair `(r, c₁)` tears the previous
listeners down and installs listeners for the new pair only; a subsequent
outside interaction invokes the new callback `c₁` and never the old one
`c₀`. -/
theorem c6_dependency_change (s : HookState) (refs : Nat → Option Node)
    (r c₀ c₁ : Nat) (e : DomEvent) (el t : Node) (hne : c₀ ≠ c₁)
    (hel : refs r = some el) (ht : e.target = some t)
    (hout : ¬ Descendant t el) :
    installedListeners (hookStep s (.render r c₁)) =
        useOnClickOutsideListeners r c₁ ∧
      (∀ l ∈ installedListeners (hookStep s (.render r c₁)), l.cbId = c₁) ∧
      dispatch refs (installedListeners (hookStep s (.render r c₁))) e = [c₁] ∧
      c₀ ∉ dispatch refs (installedListeners (hookStep s (.render r c₁))) e := by
  have hinst : installedListeners (hookStep s (.render r c₁)) =
      useOnClickOutsideListeners r c₁ := rfl
  have hd := dispatch_active_outside refs r c₁ e el t hel ht hout
  refine ⟨hinst, ?_, ?_, ?_⟩
  · rw [hinst]
    intro l hl
    simp [useOnClickOutsideListeners, useEventListener] at hl
    rcases hl with h | h <;> simp [h]
  · rw [hinst, hd]
  · rw [hinst, hd]
    simp [hne]

/-- Witness for C6: after swapping the callback from 3 to 7, an outside
touchstart invokes 7 and not 3. -/
theorem c6_dependency_change_witness :
    installedListeners (hookStep ⟨some (0, 3)⟩ (.render 0 7)) =
        useOnClickOutsideListeners 0 7 ∧
      (∀ l ∈ installedListeners (hookStep ⟨some (0, 3)⟩ (.render 0 7)),
        l.cbId = 7) ∧
      dispatch (fun _ => some elW)
        (installedListeners (hookStep ⟨some (0, 3)⟩ (.render 0 7)))
        ⟨EventType.touchstart, some tW⟩ = [7] ∧
      3 ∉ dispatch (fun _ => some elW)
        (installedListeners (hookStep ⟨some (0, 3)⟩ (.render 0 7)))
        ⟨EventType.touchstart, some tW⟩ :=
  c6_dependency_change ⟨some (0, 3)⟩ (fun _ => some elW) 0 3 7
    ⟨EventType.touchstart, some tW⟩ elW tW (by decide) rfl rfl
    (not_descendant_of_contains_false contains_elW_tW)

/-- C7: on activation the hook registers exactly two listeners on the global
input surface — first mousedown, then touchstart — both carrying the same
captured ref and callback, i.e. the same outside-detection logic. -/
theorem c7_two_listeners (s : HookState) (r c : Nat) :
    installedListeners (hookStep s (.render r c)) =
      [⟨EventType.mousedown, r, c⟩, ⟨EventType.touchstart, r, c⟩] := rfl

/-- C8: one run of the handler leaves the ref table, the event, the document
tree it references, and the registered listeners unchanged; the only state
that can change is the client state, and then only by one application of the
callback itself. -/
theorem c8_handler_frame {σ : Type} (cb : σ → σ) (r : Nat) (w : World σ) :
    (handleClick cb r w).refs = w.refs ∧
      (handleClick cb r w).event = w.event ∧
      (handleClick cb r w).listeners = w.listeners ∧
      ((handleClick cb r w).client = w.client ∨
        (handleClick cb r w).client = cb w.client) := by
  cases hb : handleClickFires (w.refs r) w.event.target <;>
    simp [handleClick, hb]

/-- C9: a null event target with the element present fails the containment
test (DOM `contains(null)` is `false`), so the handler invokes the
callback — a null target counts as an outside interaction. -/
theorem c9_null_target_fires {σ : Type} (cb : σ → σ) (r : Nat) (w : World σ)
    (el : Node) (hel : w.refs r = some el) (ht : w.event.target = none) :
    el.containsTarget none = false ∧
      handleClick cb r w = ⟨w.refs, w.event, w.listeners, cb w.client⟩ := by
  refine ⟨rfl, ?_⟩
  simp [handleClick, handleClickFires, currentContains, jsNot, hel, ht,
    Node.containsTarget]

/-- Witness for C9: a mousedown with no origin node runs the callback even
though the div is mounted. -/
theorem c9_null_target_fires_witness :
    elW.containsTarget none = false ∧
      handleClick Nat.succ 0
          ⟨fun _ => some elW, ⟨EventType.mousedown, none⟩, [], 5⟩ =
        ⟨fun _ => some elW, ⟨EventType.mousedown, none⟩, [], 6⟩ := by
  have h := c9_null_target_fires Nat.succ 0
    ⟨fun _ => some elW, ⟨EventType.mousedown, none⟩, [], 5⟩ elW rfl rfl
  simpa using h

/-- C10: the invoke/no-invoke decision is a deterministic function of exactly
the dereferenced element (with its subtree) and the event's target: two
handler runs — even over different client state types, listener sets, ref
tables and events — agree whenever those two inputs agree. -/
theorem c10_decision_deterministic {σ₁ σ₂ : Type} (w₁ : World σ₁)
    (w₂ : World σ₂) (r₁ r₂ : Nat) (href : w₁.refs r₁ = w₂.refs r₂)
    (htgt : w₁.event.target = w₂.event.target) :
    handleClickFires (w₁.refs r₁) w₁.event.target =
      handleClickFires (w₂.refs r₂) w₂.event.target := by
  rw [href, htgt]

/-- Witness for C10: two worlds differing in client state, listeners and
event type, but agreeing on the dereferenced element and the target, make
the same decision. -/
theorem c10_decision_deterministic_witness :
    handleClickFires
        ((⟨fun _ => some elW, ⟨EventType.mousedown, some tW⟩, [], (5 : Nat)⟩ :
          World Nat).refs 0)
        (⟨fun _ => some elW, ⟨EventType.mousedown, some tW⟩, [], (5 : Nat)⟩ :
          World Nat).event.target =
      handleClickFires
        ((⟨fun n => if n = 1 then some elW else none,
           ⟨EventType.touchstart, some tW⟩, [⟨EventType.mousedown, 4, 4⟩],
           true⟩ : World Bool).refs 1)
        (⟨fun n => if n = 1 then some elW else none,
          ⟨EventType.touchstart, some tW⟩, [⟨EventType.mousedown, 4, 4⟩],
          true⟩ : World Bool).event.target :=
  c10_decision_deterministic
    ⟨fun _ => some elW, ⟨EventType.mousedown, some tW⟩, [], (5 : Nat)⟩
    ⟨fun n => if n = 1 then some elW else none,
      ⟨EventType.touchstart, some tW⟩, [⟨EventType.mousedown, 4, 4⟩], true⟩
    0 1 (by simp) rfl
